import Mathlib

/-!
Shallow embedding of the expo CLI iOS run command (`runIosAsync`) together
with two notification-screen helpers.

Each external operation (xcodebuild, simctl, build-cache provider, bundler,
filesystem) is modelled by an environment `Env` holding the result that the
external call would return; the command itself becomes a pure function from
the environment and the CLI options to a `RunResult` plus a trace of
external-effect `Event`s, mirroring the source line by line.  TypeScript
falsy option values (absent `--binary`) are modelled as `none`.
-/

/-- Result of running the command: normal completion, a process exit via
`Log.exit` (the platform assertion), or a thrown error with its message. -/
inductive RunResult where
  | success : RunResult
  | exited (message : String) : RunResult
  | errored (message : String) : RunResult
  deriving DecidableEq, Repr

/-- One external-effect step performed by `runIosAsync`, in source order.
Constructors are named for the call site (the two `exportArchiveAsync` call
sites, lines 59 and 148 of the source, get distinct constructors). -/
inductive Event where
  | resolveOptionsEv : Event
  | exportCachedArchiveEv (archivePath : String) : Event
  | resolveBuildCacheEv : Event
  | getAppConfigSpawnEv (destination : String) : Event
  | exportEagerRebundleEv (bundleOutput : String) : Event
  | warnBundleOutputNotFoundEv (expectedLocation : String) : Event
  | validateBinaryEv (binary : String) : Event
  | exportEagerReleaseEv : Event
  | xcodeArchiveEv : Event
  | exportBuiltArchiveEv (archivePath : String) : Event
  | xcodeBuildEv : Event
  | terminateAppEv (udid : String) (bundleId : String) : Event
  | debugTerminateFailedEv : Event
  | startBundlerEv (headless : Bool) (scheme : Option String) : Event
  | launchAppEv (binaryPath : String) (bundleId : String) : Event
  | logProjectLogsLocationEv : Event
  | stopBundlerEv : Event
  | uploadBuildCacheEv (buildPath : String) (unsigned : Bool) : Event
  deriving DecidableEq, Repr

/-- CLI options consumed by `runIosAsync` (the fields of `Options` the
command reads).  `binary = none` models an absent `--binary` flag. -/
structure Options where
  configuration : String
  install : Bool
  binary : Option String
  withArchive : Bool
  rebundle : Bool
  deriving DecidableEq, Repr

/-- The value produced by `resolveOptionsAsync` (the `props` fields the
command reads).  `buildCacheProvider = none` models no configured provider;
`deviceUdid` stands for `props.device.udid`. -/
structure ResolvedProps where
  projectRoot : String
  scheme : String
  isSimulator : Bool
  buildCacheProvider : Option String
  shouldStartBundler : Bool
  port : Nat
  deviceUdid : String
  deriving DecidableEq, Repr

/-- Results of every external call `runIosAsync` can make, fixed up front:
the environment the run executes against. -/
structure Env where
  /-- `process.platform === "darwin"`. -/
  platformIsDarwin : Bool
  /-- Result of `resolveOptionsAsync`. -/
  props : ResolvedProps
  /-- IPA path returned by `XcodeBuild.exportArchiveAsync` on the cached
  archive (line 59). -/
  exportCachedArchiveIpa : String
  /-- Result of `resolveBuildCache` (a local path on cache hit). -/
  resolveBuildCacheResult : Option String
  /-- Result of `AppleAppIdResolver.getAppIdAsync`. -/
  appId : String
  /-- Result of `getContainerPathAsync` for `appId` on the device. -/
  containerPath : Option String
  /-- `fs.existsSync`. -/
  fileExists : String → Bool
  /-- Result of `getValidBinaryPathAsync` on a given binary. -/
  validBinaryPath : String → String
  /-- Archive path returned by `XcodeBuild.archiveAsync` (line 142). -/
  archiveResult : String
  /-- IPA path returned by `XcodeBuild.exportArchiveAsync` on the fresh
  archive (line 148). -/
  exportBuiltArchiveIpa : String
  /-- Path returned by `XcodeBuild.getAppBinaryPath` on the build output. -/
  appBinaryPath : String
  /-- Result of `ensurePortAvailabilityAsync`. -/
  portAvailable : Bool
  /-- `launchInfo.bundleId` from `getLaunchInfoForBinaryAsync`. -/
  launchBundleId : String
  /-- `launchInfo.schemes` from `getLaunchInfoForBinaryAsync`. -/
  launchSchemes : List String
  /-- Whether the `simctl terminate` call rejects. -/
  terminateFails : Bool
  /-- Result of `getSchemesForIosAsync` (`none` models a nullish result). -/
  projectSchemes : Option (List String)

/-- Model of `path.join` on plain segments (no `.`/`..` resolution is
needed by the paths the command builds). -/
def pathJoin (a b : String) : String := a ++ "/" ++ b

/-- Lines 49-71: restore a cached build.  If no binary was given and
`--archive` was set, export the cached archive at
`<projectRoot>/.expo/archives/<scheme>.xcarchive` to a signed IPA and use
it as the binary; otherwise, if no binary was given, a build-cache provider
is configured and the target is a simulator, try `resolveBuildCache` and
use the local path on a hit. -/
def restoreStep (env : Env) (options : Options) : Options × List Event :=
  if options.binary = none ∧ options.withArchive = true then
    let archivePath :=
      pathJoin (pathJoin (pathJoin env.props.projectRoot ".expo") "archives")
        (env.props.scheme ++ ".xcarchive")
    ({ options with binary := some env.exportCachedArchiveIpa },
     [Event.exportCachedArchiveEv archivePath])
  else if options.binary = none ∧ env.props.buildCacheProvider.isSome = true ∧
      env.props.isSimulator = true then
    match env.resolveBuildCacheResult with
    | some localPath => ({ options with binary := some localPath }, [Event.resolveBuildCacheEv])
    | none => (options, [Event.resolveBuildCacheEv])
  else (options, [])

/-- Lines 77-95: resolve the binary the rebundle operates on.  With no
binary, a physical device throws; on a simulator the existing container
path for the app id is used, and its absence throws a `CommandError`. -/
def rebundleResolveBinary (env : Env) (options : Options) :
    Except String (String × Options) :=
  match options.binary with
  | some b => Except.ok (b, options)
  | none =>
    if env.props.isSimulator = false then
      Except.error "Re-bundling on physical devices requires the --binary flag."
    else
      match env.containerPath with
      | none =>
        Except.error
          ("Cannot rebundle because no --binary was provided and no existing binary was found on the device for ID: "
            ++ env.appId ++ ".")
      | some p => Except.ok (p, { options with binary := some p })

/-- Lines 73-120: the `--unstable-rebundle` step.  Spawns the config
rebundle into `EXConstants.bundle`, then rebundles the app when
`main.jsbundle` exists inside the binary and otherwise logs a warning. -/
def rebundleStep (env : Env) (options : Options) :
    Except String (Options × List Event) :=
  if options.rebundle = false then Except.ok (options, [])
  else
    match rebundleResolveBinary env options with
    | Except.error e => Except.error e
    | Except.ok (bin, opts2) =>
      let configEv := Event.getAppConfigSpawnEv (pathJoin bin "EXConstants.bundle")
      let possibleBundleOutput := pathJoin bin "main.jsbundle"
      let bundleEvs :=
        if env.fileExists possibleBundleOutput = true then
          [Event.exportEagerRebundleEv possibleBundleOutput]
        else
          [Event.warnBundleOutputNotFoundEv possibleBundleOutput]
      Except.ok (opts2, [configEv] ++ bundleEvs)

/-- What lines 122-158 compute: the binary to launch, whether the cache
should be updated afterwards, and the fresh archive path when one was
produced. -/
structure BuildOutcome where
  binaryPath : String
  shouldUpdateBuildCache : Bool
  archivePath : Option String
  deriving DecidableEq, Repr

/-- Lines 122-158: reuse a supplied binary (validated), or build fresh —
an archive export for a physical device with a provider and `--archive`,
otherwise a plain `xcodebuild` build — marking the cache for update. -/
def buildStep (env : Env) (options : Options) : BuildOutcome × List Event :=
  match options.binary with
  | some b =>
    ({ binaryPath := env.validBinaryPath b, shouldUpdateBuildCache := false,
       archivePath := none },
     [Event.validateBinaryEv b])
  | none =>
    let eagerEvs :=
      if options.configuration = "Release" then [Event.exportEagerReleaseEv] else []
    if env.props.isSimulator = false ∧ env.props.buildCacheProvider.isSome = true ∧
        options.withArchive = true then
      ({ binaryPath := env.exportBuiltArchiveIpa, shouldUpdateBuildCache := true,
         archivePath := some env.archiveResult },
       eagerEvs ++ [Event.xcodeArchiveEv, Event.exportBuiltArchiveEv env.archiveResult])
    else
      ({ binaryPath := env.appBinaryPath, shouldUpdateBuildCache := true,
         archivePath := none },
       eagerEvs ++ [Event.xcodeBuildEv])

/-- Lines 161-210: demote the bundler to headless when its port became
busy, terminate any running instance on a simulator (failure is caught and
logged), start the bundler, install and launch the binary, then either log
the logs location or stop the manager. -/
def launchPhase (env : Env) (options : Options) (binaryPath : String) : List Event :=
  let shouldStartBundler := env.props.shouldStartBundler && env.portAvailable
  let bundleId := env.launchBundleId
  let isCustomBinary := options.binary.isSome
  let termEvs :=
    if env.props.isSimulator = true then
      Event.terminateAppEv env.props.deviceUdid bundleId ::
        (if env.terminateFails = true then [Event.debugTerminateFailedEv] else [])
    else []
  let scheme :=
    if isCustomBinary = true then env.launchSchemes.head?
    else (env.projectSchemes.getD []).head?
  let tailEvs :=
    if shouldStartBundler = true then [Event.logProjectLogsLocationEv]
    else [Event.stopBundlerEv]
  termEvs ++ [Event.startBundlerEv (!shouldStartBundler) scheme] ++
    [Event.launchAppEv binaryPath bundleId] ++ tailEvs

/-- Lines 212-227: upload the fresh build to the cache provider; the cache
key is marked unsigned for a physical-device archive. -/
def uploadStep (env : Env) (outcome : BuildOutcome) : List Event :=
  if outcome.shouldUpdateBuildCache = true ∧ env.props.buildCacheProvider.isSome = true then
    let unsigned := !env.props.isSimulator && outcome.archivePath.isSome
    [Event.uploadBuildCacheEv (outcome.archivePath.getD outcome.binaryPath) unsigned]
  else []

/-- Message of the `Log.exit` in `assertPlatform` (chalk styling dropped). -/
def iosOnlyOnMacMessage : String :=
  "iOS apps can only be built on macOS devices. Use eas build -p ios to build in the cloud."

/-- The whole command (lines 28-228): assert the platform, resolve options,
restore a cached build, rebundle, build or reuse a binary, terminate /
start bundler / install+launch / log-or-stop, and upload to the cache. -/
def runIosAsync (env : Env) (options : Options) : RunResult × List Event :=
  if env.platformIsDarwin = false then
    (RunResult.exited iosOnlyOnMacMessage, [])
  else
    let restored := restoreStep env options
    match rebundleStep env restored.1 with
    | Except.error e => (RunResult.errored e, Event.resolveOptionsEv :: restored.2)
    | Except.ok (opts2, rebundleEvs) =>
      let built := buildStep env opts2
      let launchEvs := launchPhase env opts2 built.1.binaryPath
      let uploadEvs := uploadStep env built.1
      (RunResult.success,
        Event.resolveOptionsEv ::
          (restored.2 ++ rebundleEvs ++ built.2 ++ launchEvs ++ uploadEvs))

/-- Effects performed by the notification-screen helpers. -/
inductive NotifEffect where
  | getPermissionsCall : NotifEffect
  | requestPermissionsCall : NotifEffect
  | unregisterCall : NotifEffect
  | alert (message : String) : NotifEffect
  deriving DecidableEq, Repr

/-- A permission result as the screen reads it (only `status` is used). -/
structure NotificationPermission where
  status : String
  deriving DecidableEq, Repr

/-- `_unregisterForNotificationsAsync` (NotificationScreen.tsx lines
380-386): awaits the unregister call in a `try`; on rejection, alerts with
the error.  Returns the rethrown error (always `none`: nothing escapes the
`catch`) and the effect trace. -/
def unregisterForNotificationsAsync (unregisterResult : Except String Unit) :
    Option String × List NotifEffect :=
  match unregisterResult with
  | Except.ok _ => (none, [NotifEffect.unregisterCall])
  | Except.error e =>
    (none,
     [NotifEffect.unregisterCall,
      NotifEffect.alert ("An error occurred un-registering for notifications: " ++ e)])

/-- `_obtainUserFacingNotifPermissionsAsync` (NotificationScreen.tsx lines
262-271): get permissions; when not granted, request them, alerting when
still not granted; return the last permission read. -/
def obtainUserFacingNotifPermissionsAsync
    (getResult requestResult : NotificationPermission) :
    NotificationPermission × List NotifEffect :=
  if getResult.status ≠ "granted" then
    let alertEvs :=
      if requestResult.status ≠ "granted" then
        [NotifEffect.alert "We don\u0027t have permission to present notifications."]
      else []
    (requestResult,
     [NotifEffect.getPermissionsCall, NotifEffect.requestPermissionsCall] ++ alertEvs)
  else (getResult, [NotifEffect.getPermissionsCall])

/-- Sample resolved props for concrete runs. -/
def sampleProps : ResolvedProps :=
  { projectRoot := "/proj", scheme := "App", isSimulator := true,
    buildCacheProvider := some "eas", shouldStartBundler := true,
    port := 8081, deviceUdid := "UDID-1" }

/-- Sample environment for concrete runs. -/
def sampleEnv : Env :=
  { platformIsDarwin := true, props := sampleProps,
    exportCachedArchiveIpa := "/tmp/App.ipa",
    resolveBuildCacheResult := none, appId := "com.example.app",
    containerPath := some "/containers/app.app",
    fileExists := fun _ => true, validBinaryPath := fun s => s,
    archiveResult := "/tmp/App.xcarchive",
    exportBuiltArchiveIpa := "/tmp/Built.ipa",
    appBinaryPath := "/build/App.app", portAvailable := true,
    launchBundleId := "com.example.app", launchSchemes := ["App"],
    terminateFails := false, projectSchemes := some ["App"] }

/-- Sample options: the plain `expo run ios` invocation. -/
def sampleOptions : Options :=
  { configuration := "Debug", install := true, binary := none,
    withArchive := false, rebundle := false }

/-- Position of each event kind in the program order of `runIosAsync`. -/
def phase : Event → Nat
  | Event.resolveOptionsEv => 0
  | Event.exportCachedArchiveEv _ => 1
  | Event.resolveBuildCacheEv => 2
  | Event.getAppConfigSpawnEv _ => 3
  | Event.exportEagerRebundleEv _ => 4
  | Event.warnBundleOutputNotFoundEv _ => 5
  | Event.validateBinaryEv _ => 6
  | Event.exportEagerReleaseEv => 7
  | Event.xcodeArchiveEv => 8
  | Event.exportBuiltArchiveEv _ => 9
  | Event.xcodeBuildEv => 10
  | Event.terminateAppEv _ _ => 11
  | Event.debugTerminateFailedEv => 12
  | Event.startBundlerEv _ _ => 13
  | Event.launchAppEv _ _ => 14
  | Event.logProjectLogsLocationEv => 15
  | Event.stopBundlerEv => 16
  | Event.uploadBuildCacheEv _ _ => 17

/-- A trace is in program order: phases strictly increase along it (which
also means no step occurs twice). -/
def eventsSorted (l : List Event) : Prop :=
  l.Pairwise (fun a b => phase a < phase b)

/-- All phases of a trace segment lie in `[lo, hi]`. -/
def phasesIn (lo hi : Nat) (l : List Event) : Prop :=
  ∀ e ∈ l, lo ≤ phase e ∧ phase e ≤ hi

/-- Environment where the expected bundle output does not exist. -/
def envC3 : Env := { sampleEnv with fileExists := fun _ => false }

/-- Options for a rebundle run with an explicit binary. -/
def optsC3 : Options :=
  { sampleOptions with rebundle := true, binary := some "/bin/App.app" }

/-- Environment targeting a physical device. -/
def envC4 : Env := { sampleEnv with props := { sampleProps with isSimulator := false } }

/-- Options: rebundle on, no explicit binary, archive restore on. -/
def optsC4 : Options := { sampleOptions with rebundle := true, withArchive := true }

/-- Environment and options that trigger the physical-device rebundle
error: no archive restore this time. -/
def optsC4w : Options := { sampleOptions with rebundle := true }

/-- Options with the archive restore set and no explicit binary. -/
def optsC1 : Options := { sampleOptions with withArchive := true }

/-- Environment whose simulator terminate call fails. -/
def envC5 : Env := { sampleEnv with terminateFails := true }

/-- Environment whose bundler port is busy after the build. -/
def envC7 : Env := { sampleEnv with portAvailable := false }

lemma phasesIn_mono {lo hi lo2 hi2 : Nat} {l : List Event}
    (h : phasesIn lo hi l) (hlo : lo2 ≤ lo) (hhi : hi ≤ hi2) :
    phasesIn lo2 hi2 l := by
  intro e he
  have := h e he
  omega

lemma eventsSorted_append {l1 l2 : List Event} {lo1 hi1 lo2 hi2 : Nat}
    (h1 : eventsSorted l1) (h2 : eventsSorted l2)
    (b1 : phasesIn lo1 hi1 l1) (b2 : phasesIn lo2 hi2 l2) (hlt : hi1 < lo2) :
    eventsSorted (l1 ++ l2) ∧ phasesIn (min lo1 lo2) (max hi1 hi2) (l1 ++ l2) := by
  constructor
  · unfold eventsSorted at h1 h2 ⊢
    rw [List.pairwise_append]
    refine ⟨h1, h2, ?_⟩
    intro a ha b hb
    have ha2 := (b1 a ha).2
    have hb2 := (b2 b hb).1
    omega
  · intro e he
    rcases List.mem_append.mp he with h | h
    · have := b1 e h; omega
    · have := b2 e h; omega

lemma restoreStep_events (env : Env) (options : Options) :
    eventsSorted (restoreStep env options).2 ∧ phasesIn 1 2 (restoreStep env options).2 := by
  unfold restoreStep
  cases hr : env.resolveBuildCacheResult <;>
    split_ifs <;>
      simp [eventsSorted, phasesIn, phase]

lemma rebundleStep_events (env : Env) (options : Options) (opts2 : Options)
    (evs : List Event) (h : rebundleStep env options = Except.ok (opts2, evs)) :
    eventsSorted evs ∧ phasesIn 3 5 evs := by
  unfold rebundleStep at h
  split_ifs at h
  · injection h with h
    injection h with h1 h2
    subst h2
    simp [eventsSorted, phasesIn]
  · cases hr : rebundleResolveBinary env options with
    | error e => rw [hr] at h; cases h
    | ok p =>
      rw [hr] at h
      obtain ⟨bin, o⟩ := p
      simp only at h
      split_ifs at h <;>
        · injection h with h
          injection h with h1 h2
          subst h2
          simp [eventsSorted, phasesIn, phase]

lemma buildStep_events (env : Env) (options : Options) :
    eventsSorted (buildStep env options).2 ∧ phasesIn 6 10 (buildStep env options).2 := by
  unfold buildStep
  cases options.binary <;>
    split_ifs <;>
      simp [eventsSorted, phasesIn, phase]

lemma launchPhase_events (env : Env) (options : Options) (binaryPath : String) :
    eventsSorted (launchPhase env options binaryPath) ∧
      phasesIn 11 16 (launchPhase env options binaryPath) := by
  unfold launchPhase
  cases hsim : env.props.isSimulator <;>
    cases htf : env.terminateFails <;>
      cases hsb : (env.props.shouldStartBundler && env.portAvailable) <;>
        simp [eventsSorted, phasesIn, phase, List.pairwise_append, hsb]

lemma uploadStep_events (env : Env) (outcome : BuildOutcome) :
    eventsSorted (uploadStep env outcome) ∧ phasesIn 17 17 (uploadStep env outcome) := by
  unfold uploadStep
  split_ifs <;>
    simp [eventsSorted, phasesIn, phase]

/-- Helper: on a non-darwin platform the whole run short-circuits. -/
lemma runIosAsync_not_darwin (env : Env) (options : Options)
    (h : env.platformIsDarwin = false) :
    runIosAsync env options = (RunResult.exited iosOnlyOnMacMessage, []) := by
  unfold runIosAsync
  simp [h]

/-- The trace of every run of `runIosAsync` is in strict program order:
every external-effect step happens at most once, in source position. -/
lemma runIosAsync_trace_sorted (env : Env) (options : Options) :
    eventsSorted (runIosAsync env options).2 := by
  unfold runIosAsync
  split_ifs with hd
  · simp [eventsSorted]
  · cases hr : rebundleStep env (restoreStep env options).1 with
    | error e =>
      simp only [hr]
      have h1 := restoreStep_events env options
      unfold eventsSorted at h1 ⊢
      rw [List.pairwise_cons]
      refine ⟨?_, h1.1⟩
      intro b hb
      have hb1 := (h1.2 b hb).1
      have h0 : phase Event.resolveOptionsEv = 0 := rfl
      omega
    | ok p =>
      obtain ⟨opts2, revs⟩ := p
      simp only [hr]
      have h1 := restoreStep_events env options
      have h2 := rebundleStep_events env (restoreStep env options).1 opts2 revs hr
      have h3 := buildStep_events env opts2
      have h4 := launchPhase_events env opts2 (buildStep env opts2).1.binaryPath
      have h5 := uploadStep_events env (buildStep env opts2).1
      have a1 := eventsSorted_append h1.1 h2.1 h1.2 h2.2 (by omega)
      have a2 := eventsSorted_append a1.1 h3.1 a1.2 h3.2 (by norm_num)
      have a3 := eventsSorted_append a2.1 h4.1 a2.2 h4.2 (by norm_num)
      have a4 := eventsSorted_append a3.1 h5.1 a3.2 h5.2 (by norm_num)
      unfold eventsSorted at a4 ⊢
      rw [List.pairwise_cons]
      refine ⟨?_, by simpa using a4.1⟩
      intro b hb
      have hb2 := a4.2 b (by simpa using hb)
      have h0 : phase Event.resolveOptionsEv = 0 := rfl
      omega

example :
    (runIosAsync sampleEnv sampleOptions).1 = RunResult.success ∧
      (runIosAsync sampleEnv sampleOptions).2 =
        [Event.resolveOptionsEv, Event.resolveBuildCacheEv, Event.xcodeBuildEv,
         Event.terminateAppEv "UDID-1" "com.example.app",
         Event.startBundlerEv false (some "App"),
         Event.launchAppEv "/build/App.app" "com.example.app",
         Event.logProjectLogsLocationEv,
         Event.uploadBuildCacheEv "/build/App.app" false] := by
  constructor <;> rfl

lemma eventsSorted_index_lt {l : List Event} (hs : eventsSorted l)
    (i j : Fin l.length) (hp : phase (l.get i) < phase (l.get j)) : (i : Nat) < (j : Nat) := by
  rcases lt_trichotomy (i : Nat) (j : Nat) with h | h | h
  · exact h
  · have : l.get i = l.get j := by
      congr 1
      exact Fin.ext h
    rw [this] at hp
    omega
  · have := List.pairwise_iff_get.mp hs j i h
    omega

lemma eventsSorted_phase_inj {l : List Event} (hs : eventsSorted l)
    {a b : Event} (ha : a ∈ l) (hb : b ∈ l) (hp : phase a = phase b) : a = b := by
  obtain ⟨i, hi⟩ := List.get_of_mem ha
  obtain ⟨j, hj⟩ := List.get_of_mem hb
  rcases lt_trichotomy (i : Nat) (j : Nat) with h | h | h
  · have := List.pairwise_iff_get.mp hs i j h
    rw [hi, hj] at this
    omega
  · rw [← hi, ← hj]
    congr 1
    exact Fin.ext h
  · have := List.pairwise_iff_get.mp hs j i h
    rw [hi, hj] at this
    omega

/-- C9: on a platform other than macOS the command exits with the
user-facing message and performs no step at all (empty trace): no option
resolution, no build, cache, or launch step. -/
theorem claim_C9_nonDarwin_exits (env : Env) (options : Options)
    (h : env.platformIsDarwin = false) :
    runIosAsync env options = (RunResult.exited iosOnlyOnMacMessage, []) :=
  runIosAsync_not_darwin env options h

/-- C9 witness: a concrete non-darwin run exits immediately. -/
theorem claim_C9_witness :
    runIosAsync { sampleEnv with platformIsDarwin := false } sampleOptions =
      (RunResult.exited iosOnlyOnMacMessage, []) :=
  claim_C9_nonDarwin_exits { sampleEnv with platformIsDarwin := false } sampleOptions rfl

/-- C8: every error of the unregister call is caught and surfaced via an
alert whose message contains the error, and nothing is rethrown (the
rethrown-error component is `none` for every outcome). -/
theorem claim_C8_unregister_alert (e : String) :
    unregisterForNotificationsAsync (Except.error e) =
      (none,
       [NotifEffect.unregisterCall,
        NotifEffect.alert ("An error occurred un-registering for notifications: " ++ e)]) ∧
    ∀ r : Except String Unit, (unregisterForNotificationsAsync r).1 = none := by
  constructor
  · rfl
  · intro r
    cases r <;> rfl

/-- C10: the request-permissions call happens iff the initial status is not
granted, and the helper returns the requested result in that case and the
initial result otherwise. -/
theorem claim_C10_obtain_permissions (g r : NotificationPermission) :
    (NotifEffect.requestPermissionsCall ∈ (obtainUserFacingNotifPermissionsAsync g r).2 ↔
      g.status ≠ "granted") ∧
    (obtainUserFacingNotifPermissionsAsync g r).1 =
      (if g.status ≠ "granted" then r else g) := by
  by_cases h1 : g.status = "granted" <;>
    by_cases h2 : r.status = "granted" <;>
      simp [obtainUserFacingNotifPermissionsAsync, h1, h2]

/-- C3 counterexample: with the rebundle flag set and the bundle output
(main.jsbundle inside the binary) missing, the run logs the warning and
completes successfully — it does not throw and does not abort. -/
theorem claim_C3_counterexample :
    optsC3.rebundle = true ∧
    envC3.fileExists (pathJoin "/bin/App.app" "main.jsbundle") = false ∧
    (runIosAsync envC3 optsC3).1 = RunResult.success ∧
    Event.warnBundleOutputNotFoundEv (pathJoin "/bin/App.app" "main.jsbundle") ∈
      (runIosAsync envC3 optsC3).2 := by
  refine ⟨rfl, rfl, ?_, ?_⟩ <;> decide

/-- C3 amended: during a rebundle, when the expected bundle output
(main.jsbundle inside the binary) is not found, a warning naming the
expected location is logged, the JS rebundle is skipped, and the command
continues (and completes successfully). -/
theorem claim_C3_missing_bundle_warns (env : Env) (options : Options) (b : String)
    (hd : env.platformIsDarwin = true)
    (hr : options.rebundle = true)
    (hb : options.binary = some b)
    (hf : env.fileExists (pathJoin b "main.jsbundle") = false) :
    Event.warnBundleOutputNotFoundEv (pathJoin b "main.jsbundle") ∈
      (runIosAsync env options).2 ∧
    (∀ s, Event.exportEagerRebundleEv s ∉ (runIosAsync env options).2) ∧
    (runIosAsync env options).1 = RunResult.success := by
  unfold runIosAsync restoreStep rebundleStep rebundleResolveBinary buildStep
    launchPhase uploadStep
  simp only [hd, hr, hb, hf]
  simp [hf]
  split_ifs <;> simp_all

/-- C3 witness: the amended statement at a concrete input. -/
theorem claim_C3_witness :
    Event.warnBundleOutputNotFoundEv (pathJoin "/bin/App.app" "main.jsbundle") ∈
      (runIosAsync envC3 optsC3).2 ∧
    (∀ s, Event.exportEagerRebundleEv s ∉ (runIosAsync envC3 optsC3).2) ∧
    (runIosAsync envC3 optsC3).1 = RunResult.success :=
  claim_C3_missing_bundle_warns envC3 optsC3 "/bin/App.app" rfl rfl rfl rfl

/-- C4 counterexample: rebundle set, no explicit binary, physical target —
yet the run completes successfully (the `--archive` restore installed a
binary before the rebundle check, so nothing is thrown). -/
theorem claim_C4_counterexample :
    optsC4.rebundle = true ∧ optsC4.binary = none ∧
    envC4.props.isSimulator = false ∧
    (runIosAsync envC4 optsC4).1 = RunResult.success := by
  refine ⟨rfl, rfl, rfl, ?_⟩
  decide

/-- C4 amended: with the rebundle option set, no explicit binary, and the
archive option not set, a physical target throws the missing-binary error
before any rebundle step (trace is just option resolution); and a
simulator target with no cached binary restored and no container found for
the app id throws the `CommandError` and aborts before any rebundle step
(every traced step has phase at most 2, i.e. precedes the rebundle). -/
theorem claim_C4_rebundle_throws (env : Env) (options : Options)
    (hd : env.platformIsDarwin = true)
    (hr : options.rebundle = true)
    (hb : options.binary = none)
    (ha : options.withArchive = false) :
    (env.props.isSimulator = false →
      runIosAsync env options =
        (RunResult.errored "Re-bundling on physical devices requires the --binary flag.",
         [Event.resolveOptionsEv])) ∧
    (env.props.isSimulator = true → env.resolveBuildCacheResult = none →
      env.containerPath = none →
      (runIosAsync env options).1 =
        RunResult.errored
          ("Cannot rebundle because no --binary was provided and no existing binary was found on the device for ID: "
            ++ env.appId ++ ".") ∧
      ∀ e ∈ (runIosAsync env options).2, phase e ≤ 2) := by
  constructor
  · intro hsim
    unfold runIosAsync restoreStep rebundleStep rebundleResolveBinary
    simp [hd, hr, hb, ha, hsim]
  · intro hsim hcache hcont
    unfold runIosAsync restoreStep rebundleStep rebundleResolveBinary
    cases hp : env.props.buildCacheProvider.isSome <;>
      simp [hd, hr, hb, ha, hsim, hcache, hcont, hp, phase]

/-- C4 witness: the amended statement at a concrete physical-device input. -/
theorem claim_C4_witness :
    runIosAsync envC4 optsC4w =
      (RunResult.errored "Re-bundling on physical devices requires the --binary flag.",
       [Event.resolveOptionsEv]) :=
  (claim_C4_rebundle_throws envC4 optsC4w rfl rfl rfl rfl).1 rfl


lemma not_mem_of_phase_out {l : List Event} {lo hi : Nat} (hb : phasesIn lo hi l)
    {e : Event} (he : phase e < lo ∨ hi < phase e) : e ∉ l := by
  intro hm
  have := hb e hm
  omega

lemma not_mem_launchPhase (env : Env) (options : Options) (bp : String) {e : Event}
    (h : phase e < 11 ∨ 16 < phase e) : e ∉ launchPhase env options bp :=
  not_mem_of_phase_out (launchPhase_events env options bp).2 h

lemma runIosAsync_ok_decomp (env : Env) (options : Options)
    (hd : env.platformIsDarwin = true)
    {opts2 : Options} {revs : List Event}
    (hok : rebundleStep env (restoreStep env options).1 = Except.ok (opts2, revs)) :
    runIosAsync env options =
      (RunResult.success,
       Event.resolveOptionsEv ::
         ((restoreStep env options).2 ++ revs ++ (buildStep env opts2).2 ++
           launchPhase env opts2 (buildStep env opts2).1.binaryPath ++
           uploadStep env (buildStep env opts2).1)) := by
  unfold runIosAsync
  simp [hd, hok]

lemma runIosAsync_error_decomp (env : Env) (options : Options)
    (hd : env.platformIsDarwin = true) {e : String}
    (herr : rebundleStep env (restoreStep env options).1 = Except.error e) :
    runIosAsync env options =
      (RunResult.errored e, Event.resolveOptionsEv :: (restoreStep env options).2) := by
  unfold runIosAsync
  simp [hd, herr]

lemma restoreStep_binary_some (env : Env) (options : Options) (b : String)
    (hb : options.binary = some b) : restoreStep env options = (options, []) := by
  unfold restoreStep
  simp [hb]

lemma restoreStep_archive (env : Env) (options : Options)
    (hb : options.binary = none) (ha : options.withArchive = true) :
    restoreStep env options =
      ({ options with binary := some env.exportCachedArchiveIpa },
       [Event.exportCachedArchiveEv
         (pathJoin (pathJoin (pathJoin env.props.projectRoot ".expo") "archives")
           (env.props.scheme ++ ".xcarchive"))]) := by
  unfold restoreStep
  simp [hb, ha]

lemma restoreStep_cache (env : Env) (options : Options)
    (hb : options.binary = none) (ha : options.withArchive = false)
    (hp : env.props.buildCacheProvider.isSome = true)
    (hs : env.props.isSimulator = true) :
    restoreStep env options =
      ((match env.resolveBuildCacheResult with
        | some lp => { options with binary := some lp }
        | none => options), [Event.resolveBuildCacheEv]) := by
  unfold restoreStep
  cases hcache : env.resolveBuildCacheResult <;> simp [hb, ha, hp, hs, hcache]

lemma restoreStep_skip (env : Env) (options : Options)
    (hb : options.binary = none) (ha : options.withArchive = false)
    (h : env.props.buildCacheProvider.isSome = false ∨ env.props.isSimulator = false) :
    restoreStep env options = (options, []) := by
  unfold restoreStep
  rcases h with h | h <;> simp [hb, ha, h]

lemma rebundleStep_off (env : Env) (options : Options)
    (hr : options.rebundle = false) : rebundleStep env options = Except.ok (options, []) := by
  unfold rebundleStep
  simp [hr]

lemma rebundleStep_with_binary (env : Env) (options : Options) (b : String)
    (hr : options.rebundle = true) (hb : options.binary = some b) :
    rebundleStep env options =
      Except.ok (options,
        [Event.getAppConfigSpawnEv (pathJoin b "EXConstants.bundle")] ++
          (if env.fileExists (pathJoin b "main.jsbundle") = true then
            [Event.exportEagerRebundleEv (pathJoin b "main.jsbundle")]
          else [Event.warnBundleOutputNotFoundEv (pathJoin b "main.jsbundle")])) := by
  unfold rebundleStep rebundleResolveBinary
  simp [hr, hb]

lemma rebundleStep_container (env : Env) (options : Options) (p : String)
    (hr : options.rebundle = true) (hb : options.binary = none)
    (hs : env.props.isSimulator = true) (hc : env.containerPath = some p) :
    rebundleStep env options =
      Except.ok ({ options with binary := some p },
        [Event.getAppConfigSpawnEv (pathJoin p "EXConstants.bundle")] ++
          (if env.fileExists (pathJoin p "main.jsbundle") = true then
            [Event.exportEagerRebundleEv (pathJoin p "main.jsbundle")]
          else [Event.warnBundleOutputNotFoundEv (pathJoin p "main.jsbundle")])) := by
  unfold rebundleStep rebundleResolveBinary
  simp [hr, hb, hs, hc]

lemma rebundleStep_physical_error (env : Env) (options : Options)
    (hr : options.rebundle = true) (hb : options.binary = none)
    (hs : env.props.isSimulator = false) :
    rebundleStep env options =
      Except.error "Re-bundling on physical devices requires the --binary flag." := by
  unfold rebundleStep rebundleResolveBinary
  simp [hr, hb, hs]

lemma rebundleStep_container_error (env : Env) (options : Options)
    (hr : options.rebundle = true) (hb : options.binary = none)
    (hs : env.props.isSimulator = true) (hc : env.containerPath = none) :
    rebundleStep env options =
      Except.error
        ("Cannot rebundle because no --binary was provided and no existing binary was found on the device for ID: "
          ++ env.appId ++ ".") := by
  unfold rebundleStep rebundleResolveBinary
  simp [hr, hb, hs, hc]

lemma buildStep_custom (env : Env) (options : Options) (b : String)
    (hb : options.binary = some b) :
    buildStep env options =
      ({ binaryPath := env.validBinaryPath b, shouldUpdateBuildCache := false,
         archivePath := none }, [Event.validateBinaryEv b]) := by
  unfold buildStep
  simp [hb]

lemma buildStep_plain (env : Env) (options : Options)
    (hb : options.binary = none)
    (h : env.props.isSimulator = true ∨ env.props.buildCacheProvider.isSome = false ∨
      options.withArchive = false) :
    buildStep env options =
      ({ binaryPath := env.appBinaryPath, shouldUpdateBuildCache := true,
         archivePath := none },
       (if options.configuration = "Release" then [Event.exportEagerReleaseEv] else []) ++
         [Event.xcodeBuildEv]) := by
  unfold buildStep
  rcases h with h | h | h <;> simp [hb, h]

lemma uploadStep_off (env : Env) (outcome : BuildOutcome)
    (h : outcome.shouldUpdateBuildCache = false) : uploadStep env outcome = [] := by
  unfold uploadStep
  simp [h]

lemma uploadStep_on (env : Env) (outcome : BuildOutcome)
    (h1 : outcome.shouldUpdateBuildCache = true)
    (h2 : env.props.buildCacheProvider.isSome = true) :
    uploadStep env outcome =
      [Event.uploadBuildCacheEv (outcome.archivePath.getD outcome.binaryPath)
        (!env.props.isSimulator && outcome.archivePath.isSome)] := by
  unfold uploadStep
  simp [h1, h2]

lemma runIos_no_fresh_build (env : Env) (options : Options)
    (hd : env.platformIsDarwin = true) (b : String)
    {opts2 : Options} {revs : List Event}
    (hok : rebundleStep env (restoreStep env options).1 = Except.ok (opts2, revs))
    (hb2 : opts2.binary = some b) :
    Event.xcodeBuildEv ∉ (runIosAsync env options).2 ∧
    ∀ bp u, Event.uploadBuildCacheEv bp u ∉ (runIosAsync env options).2 := by
  have hdec := runIosAsync_ok_decomp env options hd hok
  have hbs := buildStep_custom env opts2 b hb2
  have hup : uploadStep env
      { binaryPath := env.validBinaryPath b, shouldUpdateBuildCache := false,
        archivePath := none } = [] :=
    uploadStep_off env _ rfl
  constructor
  · intro hmem
    rw [hdec] at hmem
    have n1 := not_mem_of_phase_out (restoreStep_events env options).2
      (e := Event.xcodeBuildEv) (Or.inr (by decide))
    have n2 := not_mem_of_phase_out
      (rebundleStep_events env (restoreStep env options).1 opts2 revs hok).2
      (e := Event.xcodeBuildEv) (Or.inr (by decide))
    have n4 := not_mem_launchPhase env opts2 (env.validBinaryPath b)
      (e := Event.xcodeBuildEv) (Or.inl (by decide))
    simp [hbs, hup, n1, n2, n4] at hmem
  · intro bp u hmem
    rw [hdec] at hmem
    have n1 := not_mem_of_phase_out (restoreStep_events env options).2
      (e := Event.uploadBuildCacheEv bp u) (Or.inr (by simp [phase]))
    have n2 := not_mem_of_phase_out
      (rebundleStep_events env (restoreStep env options).1 opts2 revs hok).2
      (e := Event.uploadBuildCacheEv bp u) (Or.inr (by simp [phase]))
    have n4 := not_mem_launchPhase env opts2 (env.validBinaryPath b)
      (e := Event.uploadBuildCacheEv bp u) (Or.inr (by simp [phase]))
    simp [hbs, hup, n1, n2, n4] at hmem

lemma runIos_fresh_sim_build (env : Env) (options : Options)
    (hd : env.platformIsDarwin = true)
    {opts2 : Options} {revs : List Event}
    (hok : rebundleStep env (restoreStep env options).1 = Except.ok (opts2, revs))
    (hb2 : opts2.binary = none)
    (hsim : env.props.isSimulator = true)
    (hp : env.props.buildCacheProvider.isSome = true) :
    Event.xcodeBuildEv ∈ (runIosAsync env options).2 ∧
    Event.uploadBuildCacheEv env.appBinaryPath false ∈ (runIosAsync env options).2 ∧
    ∀ bp u, Event.uploadBuildCacheEv bp u ∈ (runIosAsync env options).2 →
      bp = env.appBinaryPath ∧ u = false := by
  have hdec := runIosAsync_ok_decomp env options hd hok
  have hbs := buildStep_plain env opts2 hb2 (Or.inl hsim)
  have hup : uploadStep env (buildStep env opts2).1 =
      [Event.uploadBuildCacheEv env.appBinaryPath false] := by
    rw [hbs]
    rw [uploadStep_on env _ rfl hp]
    simp [hsim]
  refine ⟨?_, ?_, ?_⟩
  · rw [hdec]
    simp [hbs]
  · rw [hdec, hup]
    simp
  · intro bp u hmem
    rw [hdec, hup] at hmem
    have n1 := not_mem_of_phase_out (restoreStep_events env options).2
      (e := Event.uploadBuildCacheEv bp u) (Or.inr (by simp [phase]))
    have n2 := not_mem_of_phase_out
      (rebundleStep_events env (restoreStep env options).1 opts2 revs hok).2
      (e := Event.uploadBuildCacheEv bp u) (Or.inr (by simp [phase]))
    have n3 := not_mem_of_phase_out (buildStep_events env opts2).2
      (e := Event.uploadBuildCacheEv bp u) (Or.inr (by simp [phase]))
    have n4 := not_mem_launchPhase env opts2 (buildStep env opts2).1.binaryPath
      (e := Event.uploadBuildCacheEv bp u) (Or.inr (by simp [phase]))
    simp [n1, n2, n3, n4] at hmem
    exact ⟨hmem.1, hmem.2⟩

/-- C1 counterexample: no explicit binary, a build-cache provider
configured, simulator target — yet no `resolveBuildCache` fetch is
attempted, because the `--archive` restore branch takes precedence. -/
theorem claim_C1_counterexample :
    optsC1.binary = none ∧ sampleEnv.props.buildCacheProvider.isSome = true ∧
    sampleEnv.props.isSimulator = true ∧
    Event.resolveBuildCacheEv ∉ (runIosAsync sampleEnv optsC1).2 := by
  refine ⟨rfl, rfl, rfl, ?_⟩
  decide

/-- C1 amended: when no explicit binary is given, the archive option is not
set, a build-cache provider is configured and the target is a simulator,
the command attempts the cache fetch; a fresh `xcodebuild` build happens
iff the freshly built binary is uploaded to the cache, every upload is of
the freshly built binary (and not marked unsigned), and the fetch precedes
any fresh build in the trace. -/
theorem claim_C1_build_cache (env : Env) (options : Options)
    (hd : env.platformIsDarwin = true)
    (hb : options.binary = none)
    (ha : options.withArchive = false)
    (hp : env.props.buildCacheProvider.isSome = true)
    (hs : env.props.isSimulator = true) :
    Event.resolveBuildCacheEv ∈ (runIosAsync env options).2 ∧
    (Event.xcodeBuildEv ∈ (runIosAsync env options).2 ↔
      Event.uploadBuildCacheEv env.appBinaryPath false ∈ (runIosAsync env options).2) ∧
    (∀ bp u, Event.uploadBuildCacheEv bp u ∈ (runIosAsync env options).2 →
      bp = env.appBinaryPath ∧ u = false) ∧
    (∀ (i j : Fin (runIosAsync env options).2.length),
      (runIosAsync env options).2.get i = Event.resolveBuildCacheEv →
      (runIosAsync env options).2.get j = Event.xcodeBuildEv →
      (i : Nat) < (j : Nat)) := by
  have hre := restoreStep_cache env options hb ha hp hs
  have hre2 : (restoreStep env options).2 = [Event.resolveBuildCacheEv] := by rw [hre]
  have hord : ∀ (i j : Fin (runIosAsync env options).2.length),
      (runIosAsync env options).2.get i = Event.resolveBuildCacheEv →
      (runIosAsync env options).2.get j = Event.xcodeBuildEv →
      (i : Nat) < (j : Nat) := by
    intro i j hi hj
    apply eventsSorted_index_lt (runIosAsync_trace_sorted env options) i j
    rw [hi, hj]
    decide
  have hfetch : Event.resolveBuildCacheEv ∈ (runIosAsync env options).2 := by
    cases hrb : rebundleStep env (restoreStep env options).1 with
    | error e =>
      rw [runIosAsync_error_decomp env options hd hrb]
      simp [hre2]
    | ok p =>
      obtain ⟨opts2, revs⟩ := p
      rw [runIosAsync_ok_decomp env options hd hrb]
      simp [hre2]
  have hmain : (Event.xcodeBuildEv ∈ (runIosAsync env options).2 ↔
      Event.uploadBuildCacheEv env.appBinaryPath false ∈ (runIosAsync env options).2) ∧
      (∀ bp u, Event.uploadBuildCacheEv bp u ∈ (runIosAsync env options).2 →
        bp = env.appBinaryPath ∧ u = false) := by
    cases hcache : env.resolveBuildCacheResult with
    | some lp =>
      have h1 : (restoreStep env options).1 = { options with binary := some lp } := by
        rw [hre, hcache]
      cases hr2 : options.rebundle with
      | false =>
        have hok : rebundleStep env (restoreStep env options).1 =
            Except.ok ({ options with binary := some lp }, ([] : List Event)) := by
          rw [h1]
          exact rebundleStep_off env _ hr2
        have hno := runIos_no_fresh_build env options hd lp hok rfl
        exact ⟨iff_of_false hno.1 (hno.2 _ _), fun bp u hm => absurd hm (hno.2 bp u)⟩
      | true =>
        obtain ⟨q, hok⟩ : ∃ q, rebundleStep env (restoreStep env options).1 =
            Except.ok ({ options with binary := some lp }, q) :=
          ⟨_, by rw [h1]; exact rebundleStep_with_binary env _ lp hr2 rfl⟩
        have hno := runIos_no_fresh_build env options hd lp hok rfl
        exact ⟨iff_of_false hno.1 (hno.2 _ _), fun bp u hm => absurd hm (hno.2 bp u)⟩
    | none =>
      have h1 : (restoreStep env options).1 = options := by
        rw [hre, hcache]
      cases hr2 : options.rebundle with
      | false =>
        have hok : rebundleStep env (restoreStep env options).1 =
            Except.ok (options, ([] : List Event)) := by
          rw [h1]
          exact rebundleStep_off env options hr2
        have hfr := runIos_fresh_sim_build env options hd hok hb hs hp
        exact ⟨iff_of_true hfr.1 hfr.2.1, hfr.2.2⟩
      | true =>
        cases hcont : env.containerPath with
        | some cp =>
          obtain ⟨q, hok⟩ : ∃ q, rebundleStep env (restoreStep env options).1 =
              Except.ok ({ options with binary := some cp }, q) :=
            ⟨_, by rw [h1]; exact rebundleStep_container env options cp hr2 hb hs hcont⟩
          have hno := runIos_no_fresh_build env options hd cp hok rfl
          exact ⟨iff_of_false hno.1 (hno.2 _ _), fun bp u hm => absurd hm (hno.2 bp u)⟩
        | none =>
          obtain ⟨msg, herr⟩ : ∃ m, rebundleStep env (restoreStep env options).1 =
              Except.error m :=
            ⟨_, by rw [h1]; exact rebundleStep_container_error env options hr2 hb hs hcont⟩
          have htr : (runIosAsync env options).2 =
              [Event.resolveOptionsEv, Event.resolveBuildCacheEv] := by
            rw [runIosAsync_error_decomp env options hd herr]
            simp [hre2]
          rw [htr]
          constructor
          · simp
          · intro bp u hm
            simp at hm
  exact ⟨hfetch, hmain.1, hmain.2, hord⟩

/-- C1 witness: the amended statement at the sample simulator input. -/
theorem claim_C1_witness :
    Event.resolveBuildCacheEv ∈ (runIosAsync sampleEnv sampleOptions).2 ∧
    (Event.xcodeBuildEv ∈ (runIosAsync sampleEnv sampleOptions).2 ↔
      Event.uploadBuildCacheEv sampleEnv.appBinaryPath false ∈
        (runIosAsync sampleEnv sampleOptions).2) ∧
    (∀ bp u, Event.uploadBuildCacheEv bp u ∈ (runIosAsync sampleEnv sampleOptions).2 →
      bp = sampleEnv.appBinaryPath ∧ u = false) ∧
    (∀ (i j : Fin (runIosAsync sampleEnv sampleOptions).2.length),
      (runIosAsync sampleEnv sampleOptions).2.get i = Event.resolveBuildCacheEv →
      (runIosAsync sampleEnv sampleOptions).2.get j = Event.xcodeBuildEv →
      (i : Nat) < (j : Nat)) :=
  claim_C1_build_cache sampleEnv sampleOptions rfl rfl rfl rfl rfl

lemma launchApp_mem_launchPhase (env : Env) (options : Options) (bp : String) :
    Event.launchAppEv bp env.launchBundleId ∈ launchPhase env options bp := by
  unfold launchPhase
  split_ifs <;> simp

lemma terminate_mem_launchPhase (env : Env) (options : Options) (bp : String)
    (hsim : env.props.isSimulator = true) :
    Event.terminateAppEv env.props.deviceUdid env.launchBundleId ∈
      launchPhase env options bp := by
  unfold launchPhase
  simp [hsim]

lemma debug_mem_launchPhase (env : Env) (options : Options) (bp : String)
    (hsim : env.props.isSimulator = true) (htf : env.terminateFails = true) :
    Event.debugTerminateFailedEv ∈ launchPhase env options bp := by
  unfold launchPhase
  simp [hsim, htf]

lemma terminate_not_mem_launchPhase (env : Env) (options : Options) (bp : String)
    (hsim : env.props.isSimulator = false) (u b : String) :
    Event.terminateAppEv u b ∉ launchPhase env options bp := by
  unfold launchPhase
  cases hsb : (env.props.shouldStartBundler && env.portAvailable) <;>
    simp [hsim, hsb]

lemma start_mem_launchPhase (env : Env) (options : Options) (bp : String) :
    Event.startBundlerEv (!(env.props.shouldStartBundler && env.portAvailable))
        (if options.binary.isSome = true then env.launchSchemes.head?
         else (env.projectSchemes.getD []).head?) ∈
      launchPhase env options bp := by
  unfold launchPhase
  split_ifs <;> simp [*]

lemma log_mem_launchPhase_iff (env : Env) (options : Options) (bp : String) :
    Event.logProjectLogsLocationEv ∈ launchPhase env options bp ↔
      (env.props.shouldStartBundler && env.portAvailable) = true := by
  unfold launchPhase
  cases hsim : env.props.isSimulator <;>
    cases htf : env.terminateFails <;>
      cases hsb : (env.props.shouldStartBundler && env.portAvailable) <;>
        simp [hsim, htf, hsb]

lemma stop_mem_launchPhase_iff (env : Env) (options : Options) (bp : String) :
    Event.stopBundlerEv ∈ launchPhase env options bp ↔
      (env.props.shouldStartBundler && env.portAvailable) = false := by
  unfold launchPhase
  cases hsim : env.props.isSimulator <;>
    cases htf : env.terminateFails <;>
      cases hsb : (env.props.shouldStartBundler && env.portAvailable) <;>
        simp [hsim, htf, hsb]

lemma runIos_success_inv (env : Env) (options : Options)
    (h : (runIosAsync env options).1 = RunResult.success) :
    env.platformIsDarwin = true ∧
    ∃ opts2 revs, rebundleStep env (restoreStep env options).1 = Except.ok (opts2, revs) := by
  cases hd : env.platformIsDarwin with
  | false =>
    rw [runIosAsync_not_darwin env options hd] at h
    simp at h
  | true =>
    refine ⟨rfl, ?_⟩
    cases hrb : rebundleStep env (restoreStep env options).1 with
    | error e =>
      rw [runIosAsync_error_decomp env options hd hrb] at h
      simp at h
    | ok p =>
      obtain ⟨o2, r2⟩ := p
      exact ⟨o2, r2, rfl⟩

lemma mem_trace_iff_mem_launch (env : Env) (options : Options)
    (hd : env.platformIsDarwin = true)
    {opts2 : Options} {revs : List Event}
    (hok : rebundleStep env (restoreStep env options).1 = Except.ok (opts2, revs))
    {e : Event} (hlo : 11 ≤ phase e) (hhi : phase e ≤ 16) :
    e ∈ (runIosAsync env options).2 ↔
      e ∈ launchPhase env opts2 (buildStep env opts2).1.binaryPath := by
  have hne : e ≠ Event.resolveOptionsEv := by
    intro h
    subst h
    simp [phase] at hlo
  rw [runIosAsync_ok_decomp env options hd hok]
  have n1 := not_mem_of_phase_out (restoreStep_events env options).2
    (e := e) (Or.inr (by omega))
  have n2 := not_mem_of_phase_out
    (rebundleStep_events env (restoreStep env options).1 opts2 revs hok).2
    (e := e) (Or.inr (by omega))
  have n3 := not_mem_of_phase_out (buildStep_events env opts2).2
    (e := e) (Or.inr (by omega))
  have n5 := not_mem_of_phase_out (uploadStep_events env (buildStep env opts2).1).2
    (e := e) (Or.inl (by omega))
  simp [n1, n2, n3, n5, hne]

lemma runIos_result_ignores_terminateFails (env : Env) (options : Options) (t : Bool) :
    (runIosAsync { env with terminateFails := t } options).1 =
      (runIosAsync env options).1 := by
  by_cases hd : env.platformIsDarwin = true
  · cases hrb : rebundleStep env (restoreStep env options).1 with
    | error e =>
      rw [runIosAsync_error_decomp env options hd hrb,
        runIosAsync_error_decomp { env with terminateFails := t } options hd hrb]
    | ok p =>
      obtain ⟨o2, r2⟩ := p
      rw [runIosAsync_ok_decomp env options hd hrb,
        runIosAsync_ok_decomp { env with terminateFails := t } options hd hrb]
  · have hd2 : env.platformIsDarwin = false := by
      cases h2 : env.platformIsDarwin
      · rfl
      · exact absurd h2 hd
    rw [runIosAsync_not_darwin env options hd2,
      runIosAsync_not_darwin { env with terminateFails := t } options hd2]

lemma terminate_not_mem_trace (env : Env) (options : Options)
    (hsim : env.props.isSimulator = false) (u b : String) :
    Event.terminateAppEv u b ∉ (runIosAsync env options).2 := by
  by_cases hd : env.platformIsDarwin = true
  · cases hrb : rebundleStep env (restoreStep env options).1 with
    | error e =>
      rw [runIosAsync_error_decomp env options hd hrb]
      have n1 := not_mem_of_phase_out (restoreStep_events env options).2
        (e := Event.terminateAppEv u b) (Or.inr (by simp [phase]))
      simp [n1]
    | ok p =>
      obtain ⟨o2, r2⟩ := p
      rw [runIosAsync_ok_decomp env options hd hrb]
      have n1 := not_mem_of_phase_out (restoreStep_events env options).2
        (e := Event.terminateAppEv u b) (Or.inr (by simp [phase]))
      have n2 := not_mem_of_phase_out
        (rebundleStep_events env (restoreStep env options).1 o2 r2 hrb).2
        (e := Event.terminateAppEv u b) (Or.inr (by simp [phase]))
      have n3 := not_mem_of_phase_out (buildStep_events env o2).2
        (e := Event.terminateAppEv u b) (Or.inr (by simp [phase]))
      have n4 := terminate_not_mem_launchPhase env o2 (buildStep env o2).1.binaryPath hsim u b
      have n5 := not_mem_of_phase_out (uploadStep_events env (buildStep env o2).1).2
        (e := Event.terminateAppEv u b) (Or.inl (by simp [phase]))
      simp [n1, n2, n3, n4, n5]
  · have hd2 : env.platformIsDarwin = false := by
      cases h2 : env.platformIsDarwin
      · rfl
      · exact absurd h2 hd
    rw [runIosAsync_not_darwin env options hd2]
    simp

/-- C5: a failing simulator terminate call is caught: the run result is the
same whether or not the terminate call fails, on a physical device no
terminate call is ever made, and on a successful simulator run with a
failing terminate call the failure is logged and the bundler start and the
install-and-launch step still happen. -/
theorem claim_C5_terminate_nonfatal (env : Env) (options : Options) :
    (runIosAsync { env with terminateFails := true } options).1 =
      (runIosAsync { env with terminateFails := false } options).1 ∧
    (env.props.isSimulator = false →
      ∀ u b, Event.terminateAppEv u b ∉ (runIosAsync env options).2) ∧
    (env.props.isSimulator = true → env.terminateFails = true →
      (runIosAsync env options).1 = RunResult.success →
      Event.terminateAppEv env.props.deviceUdid env.launchBundleId ∈
        (runIosAsync env options).2 ∧
      Event.debugTerminateFailedEv ∈ (runIosAsync env options).2 ∧
      (∃ hl s, Event.startBundlerEv hl s ∈ (runIosAsync env options).2) ∧
      ∃ bp bid, Event.launchAppEv bp bid ∈ (runIosAsync env options).2) := by
  refine ⟨?_, ?_, ?_⟩
  · exact (runIos_result_ignores_terminateFails env options true).trans
      (runIos_result_ignores_terminateFails env options false).symm
  · intro hsim u b
    exact terminate_not_mem_trace env options hsim u b
  · intro hsim htf hsucc
    obtain ⟨hd, o2, r2, hok⟩ := runIos_success_inv env options hsucc
    refine ⟨?_, ?_, ?_, ?_⟩
    · exact (mem_trace_iff_mem_launch env options hd hok (by simp [phase])
        (by simp [phase])).mpr (terminate_mem_launchPhase env o2 _ hsim)
    · exact (mem_trace_iff_mem_launch env options hd hok (by decide)
        (by decide)).mpr (debug_mem_launchPhase env o2 _ hsim htf)
    · exact ⟨_, _, (mem_trace_iff_mem_launch env options hd hok (by simp [phase])
        (by simp [phase])).mpr (start_mem_launchPhase env o2 _)⟩
    · exact ⟨_, _, (mem_trace_iff_mem_launch env options hd hok (by simp [phase])
        (by simp [phase])).mpr (launchApp_mem_launchPhase env o2 _)⟩

/-- C6: with no explicit binary and the archive option set, the cached
archive at `<projectRoot>/.expo/archives/<scheme>.xcarchive` is exported to
a signed IPA, which is validated and used as the binary for the rest of the
run (installed and launched), and the run completes. -/
theorem claim_C6_archive_restore (env : Env) (options : Options)
    (hd : env.platformIsDarwin = true)
    (hb : options.binary = none)
    (ha : options.withArchive = true) :
    Event.exportCachedArchiveEv
        (pathJoin (pathJoin (pathJoin env.props.projectRoot ".expo") "archives")
          (env.props.scheme ++ ".xcarchive")) ∈ (runIosAsync env options).2 ∧
    Event.validateBinaryEv env.exportCachedArchiveIpa ∈ (runIosAsync env options).2 ∧
    Event.launchAppEv (env.validBinaryPath env.exportCachedArchiveIpa)
        env.launchBundleId ∈ (runIosAsync env options).2 ∧
    (runIosAsync env options).1 = RunResult.success := by
  have hre := restoreStep_archive env options hb ha
  have h1 : (restoreStep env options).1 =
      { options with binary := some env.exportCachedArchiveIpa } := by rw [hre]
  have h2 : (restoreStep env options).2 =
      [Event.exportCachedArchiveEv
        (pathJoin (pathJoin (pathJoin env.props.projectRoot ".expo") "archives")
          (env.props.scheme ++ ".xcarchive"))] := by rw [hre]
  obtain ⟨q, hok⟩ : ∃ q, rebundleStep env (restoreStep env options).1 =
      Except.ok ({ options with binary := some env.exportCachedArchiveIpa }, q) := by
    by_cases hr2 : options.rebundle = true
    · exact ⟨_, by
        rw [h1]
        exact rebundleStep_with_binary env _ env.exportCachedArchiveIpa hr2 rfl⟩
    · have hr2f : options.rebundle = false := by
        cases h2 : options.rebundle
        · rfl
        · exact absurd h2 hr2
      refine ⟨[], ?_⟩
      rw [h1]
      exact rebundleStep_off env _ hr2f
  have hdec := runIosAsync_ok_decomp env options hd hok
  have hbs := buildStep_custom env { options with binary := some env.exportCachedArchiveIpa }
    env.exportCachedArchiveIpa rfl
  refine ⟨?_, ?_, ?_, ?_⟩
  · rw [hdec]
    simp [h2]
  · rw [hdec]
    simp [hbs]
  · have hl := launchApp_mem_launchPhase env
      { options with binary := some env.exportCachedArchiveIpa }
      (env.validBinaryPath env.exportCachedArchiveIpa)
    rw [hdec]
    simp [hbs, hl]
  · rw [hdec]

/-- C5 witness: the statement at a concrete simulator input with a failing
terminate call. -/
theorem claim_C5_witness :
    Event.terminateAppEv envC5.props.deviceUdid envC5.launchBundleId ∈
      (runIosAsync envC5 sampleOptions).2 ∧
    Event.debugTerminateFailedEv ∈ (runIosAsync envC5 sampleOptions).2 ∧
    (∃ hl s, Event.startBundlerEv hl s ∈ (runIosAsync envC5 sampleOptions).2) ∧
    ∃ bp bid, Event.launchAppEv bp bid ∈ (runIosAsync envC5 sampleOptions).2 :=
  (claim_C5_terminate_nonfatal envC5 sampleOptions).2.2 rfl rfl (by decide)

/-- C6 witness: the statement at a concrete archive-restore input. -/
theorem claim_C6_witness :
    Event.exportCachedArchiveEv
        (pathJoin (pathJoin (pathJoin sampleEnv.props.projectRoot ".expo") "archives")
          (sampleEnv.props.scheme ++ ".xcarchive")) ∈ (runIosAsync sampleEnv optsC1).2 ∧
    Event.validateBinaryEv sampleEnv.exportCachedArchiveIpa ∈
      (runIosAsync sampleEnv optsC1).2 ∧
    Event.launchAppEv (sampleEnv.validBinaryPath sampleEnv.exportCachedArchiveIpa)
        sampleEnv.launchBundleId ∈ (runIosAsync sampleEnv optsC1).2 ∧
    (runIosAsync sampleEnv optsC1).1 = RunResult.success :=
  claim_C6_archive_restore sampleEnv optsC1 rfl rfl rfl

/-- C7: after install+launch exactly one of logging the project logs
location (iff the bundler actually started) or stopping the dev-server
manager happens, and only after the launch step in the trace; when the
bundler port became busy after the build the bundler is started headless
and the manager stopped afterwards, the run still succeeding. -/
theorem claim_C7_log_or_stop (env : Env) (options : Options)
    (hsucc : (runIosAsync env options).1 = RunResult.success) :
    ((Event.logProjectLogsLocationEv ∈ (runIosAsync env options).2 ∧
        Event.stopBundlerEv ∉ (runIosAsync env options).2) ∨
      (Event.stopBundlerEv ∈ (runIosAsync env options).2 ∧
        Event.logProjectLogsLocationEv ∉ (runIosAsync env options).2)) ∧
    (Event.logProjectLogsLocationEv ∈ (runIosAsync env options).2 ↔
      (env.props.shouldStartBundler && env.portAvailable) = true) ∧
    (env.props.shouldStartBundler = true → env.portAvailable = false →
      (∃ s, Event.startBundlerEv true s ∈ (runIosAsync env options).2) ∧
      Event.stopBundlerEv ∈ (runIosAsync env options).2) ∧
    (∀ (i j : Fin (runIosAsync env options).2.length) (bp bid : String),
      (runIosAsync env options).2.get i = Event.launchAppEv bp bid →
      ((runIosAsync env options).2.get j = Event.logProjectLogsLocationEv ∨
        (runIosAsync env options).2.get j = Event.stopBundlerEv) →
      (i : Nat) < (j : Nat)) := by
  obtain ⟨hd, o2, r2, hok⟩ := runIos_success_inv env options hsucc
  have hlog : Event.logProjectLogsLocationEv ∈ (runIosAsync env options).2 ↔
      (env.props.shouldStartBundler && env.portAvailable) = true :=
    (mem_trace_iff_mem_launch env options hd hok (by decide) (by decide)).trans
      (log_mem_launchPhase_iff env o2 _)
  have hstop : Event.stopBundlerEv ∈ (runIosAsync env options).2 ↔
      (env.props.shouldStartBundler && env.portAvailable) = false :=
    (mem_trace_iff_mem_launch env options hd hok (by decide) (by decide)).trans
      (stop_mem_launchPhase_iff env o2 _)
  refine ⟨?_, hlog, ?_, ?_⟩
  · cases hsb : (env.props.shouldStartBundler && env.portAvailable) with
    | true =>
      exact Or.inl ⟨hlog.mpr hsb, fun hm => absurd (hstop.mp hm) (by simp [hsb])⟩
    | false =>
      exact Or.inr ⟨hstop.mpr hsb, fun hm => absurd (hlog.mp hm) (by simp [hsb])⟩
  · intro hsbT hportF
    have hsb : (env.props.shouldStartBundler && env.portAvailable) = false := by
      rw [hsbT, hportF]
      rfl
    constructor
    · have hst := start_mem_launchPhase env o2 (buildStep env o2).1.binaryPath
      rw [hsb] at hst
      simp only [Bool.not_false] at hst
      exact ⟨_, (mem_trace_iff_mem_launch env options hd hok (by simp [phase])
        (by simp [phase])).mpr hst⟩
    · exact hstop.mpr hsb
  · intro i j bp bid hi hj
    apply eventsSorted_index_lt (runIosAsync_trace_sorted env options) i j
    rw [hi]
    rcases hj with hj | hj <;> rw [hj] <;> simp [phase]

/-- C7 witness: the demotion part at a concrete busy-port input. -/
theorem claim_C7_witness :
    (∃ s, Event.startBundlerEv true s ∈ (runIosAsync envC7 sampleOptions).2) ∧
    Event.stopBundlerEv ∈ (runIosAsync envC7 sampleOptions).2 :=
  (claim_C7_log_or_stop envC7 sampleOptions (by decide)).2.2.1 rfl rfl

/-- C2: on every successful run the trace follows the source order of the
steps strictly (phases strictly increase, so no step is reordered or
repeated, and events with equal phase coincide); option resolution, a
bundler start and an install-and-launch step are present, one of
log-location or stop-bundler is present, and a terminate step occurs only
— and, on a simulator, always — for a simulator target. -/
theorem claim_C2_step_order (env : Env) (options : Options)
    (hsucc : (runIosAsync env options).1 = RunResult.success) :
    eventsSorted (runIosAsync env options).2 ∧
    (∀ a ∈ (runIosAsync env options).2, ∀ b ∈ (runIosAsync env options).2,
      phase a = phase b → a = b) ∧
    Event.resolveOptionsEv ∈ (runIosAsync env options).2 ∧
    (∃ hl s, Event.startBundlerEv hl s ∈ (runIosAsync env options).2) ∧
    (∃ bp bid, Event.launchAppEv bp bid ∈ (runIosAsync env options).2) ∧
    (Event.logProjectLogsLocationEv ∈ (runIosAsync env options).2 ∨
      Event.stopBundlerEv ∈ (runIosAsync env options).2) ∧
    (∀ u b, Event.terminateAppEv u b ∈ (runIosAsync env options).2 →
      env.props.isSimulator = true) ∧
    (env.props.isSimulator = true →
      Event.terminateAppEv env.props.deviceUdid env.launchBundleId ∈
        (runIosAsync env options).2) := by
  obtain ⟨hd, o2, r2, hok⟩ := runIos_success_inv env options hsucc
  refine ⟨runIosAsync_trace_sorted env options,
    fun a ha b hb hp =>
      eventsSorted_phase_inj (runIosAsync_trace_sorted env options) ha hb hp,
    ?_, ?_, ?_, ?_, ?_, ?_⟩
  · rw [runIosAsync_ok_decomp env options hd hok]
    simp
  · exact ⟨_, _, (mem_trace_iff_mem_launch env options hd hok (by simp [phase])
      (by simp [phase])).mpr (start_mem_launchPhase env o2 _)⟩
  · exact ⟨_, _, (mem_trace_iff_mem_launch env options hd hok (by simp [phase])
      (by simp [phase])).mpr (launchApp_mem_launchPhase env o2 _)⟩
  · cases hsb : (env.props.shouldStartBundler && env.portAvailable) with
    | true =>
      exact Or.inl ((mem_trace_iff_mem_launch env options hd hok (by decide)
        (by decide)).mpr ((log_mem_launchPhase_iff env o2 _).mpr hsb))
    | false =>
      exact Or.inr ((mem_trace_iff_mem_launch env options hd hok (by decide)
        (by decide)).mpr ((stop_mem_launchPhase_iff env o2 _).mpr hsb))
  · intro u b hm
    by_cases hsim : env.props.isSimulator = true
    · exact hsim
    · have hsim2 : env.props.isSimulator = false := by
        cases h2 : env.props.isSimulator
        · rfl
        · exact absurd h2 hsim
      exact absurd hm (terminate_not_mem_trace env options hsim2 u b)
  · intro hsim
    exact (mem_trace_iff_mem_launch env options hd hok (by simp [phase])
      (by simp [phase])).mpr (terminate_mem_launchPhase env o2 _ hsim)

/-- C2 witness: strict program order of a concrete successful trace. -/
theorem claim_C2_witness : eventsSorted (runIosAsync sampleEnv sampleOptions).2 :=
  (claim_C2_step_order sampleEnv sampleOptions (by decide)).1
